import Mathlib

/-!
# Verification of the test-token-solana ledger core

A shallow embedding of the token program (src/state.rs, src/instruction.rs,
src/processor.rs, src/error.rs) in Lean 4, with theorems settling the claims
about the record codec, the instruction codec, and the ledger processor.

Bytes are modelled as `Nat` (a well-formed buffer has every entry `< 256`),
buffers as `List Nat`, 32-byte public keys as `List Nat` of length 32, and
u64 values as `Nat` together with explicit `< 2 ^ 64` bounds where Rust's
checked arithmetic matters.
-/

namespace TestToken

/-- A 32-byte public key, as its raw byte list. -/
abbrev Pubkey := List Nat

/-- Every entry of the buffer is a byte value. -/
def IsBytes (l : List Nat) : Prop := ∀ b ∈ l, b < 256

instance (l : List Nat) : Decidable (IsBytes l) := by
  unfold IsBytes
  infer_instance

/-- The sub-slice of `s` starting at index `i` of length `n`
(the model of `array_refs` sub-slicing). -/
def slice (s : List Nat) (i n : Nat) : List Nat := (s.drop i).take n

/-- The byte of `s` at index `i` (callers have already checked the length). -/
def byteAt (s : List Nat) (i : Nat) : Nat := s.getD i 0

/-- Little-endian encoding of a u64 value into 8 bytes
(the model of `u64::to_le_bytes`). -/
def u64ToLE (n : Nat) : List Nat :=
  [n % 256, n / 256 % 256, n / 256 ^ 2 % 256, n / 256 ^ 3 % 256,
   n / 256 ^ 4 % 256, n / 256 ^ 5 % 256, n / 256 ^ 6 % 256, n / 256 ^ 7 % 256]

/-- Little-endian decoding of 8 bytes into a u64 value
(the model of `u64::from_le_bytes`). -/
def u64FromLE (l : List Nat) : Nat :=
  match l with
  | [b0, b1, b2, b3, b4, b5, b6, b7] =>
      b0 + 256 * b1 + 256 ^ 2 * b2 + 256 ^ 3 * b3 + 256 ^ 4 * b4 +
        256 ^ 5 * b5 + 256 ^ 6 * b6 + 256 ^ 7 * b7
  | _ => 0

/-- The error enum of src/error.rs (`TokenError`). -/
inductive TokenError where
  | InvalidInstruction
  | AlreadyInUse
  | NotRentExempt
  | InvalidMint
  | MintMismatch
  | SelfTransfer
  | InsufficientFunds
  | Overflow
  | FixedSupply
  | OwnerMismatch
deriving DecidableEq, Repr

/-- The `ProgramError` values this program can produce: a custom
`TokenError` (via `From<TokenError> for ProgramError`), or one of the
builtin variants the code uses directly. -/
inductive ProgError where
  | Custom (e : TokenError)
  | InvalidAccountData
  | UninitializedAccount
  | MissingRequiredSignature
deriving DecidableEq, Repr

instance {e a : Type} [DecidableEq e] [DecidableEq a] : DecidableEq (Except e a) := fun x y =>
  match x, y with
  | .error u, .error v =>
    if h : u = v then .isTrue (by rw [h]) else .isFalse (fun hc => h (Except.error.inj hc))
  | .ok u, .ok v =>
    if h : u = v then .isTrue (by rw [h]) else .isFalse (fun hc => h (Except.ok.inj hc))
  | .error _, .ok _ => .isFalse (fun hc => Except.noConfusion hc)
  | .ok _, .error _ => .isFalse (fun hc => Except.noConfusion hc)

/-- `AccountState` of src/state.rs. -/
inductive AccountState where
  | Uninitialized
  | Initialized
deriving DecidableEq, Repr

/-- The `state as u8` cast of src/state.rs (discriminants 0 and 1). -/
def AccountState.toByte : AccountState → Nat
  | .Uninitialized => 0
  | .Initialized => 1

/-- `AccountState::try_from_primitive` of the `TryFromPrimitive` derive. -/
def AccountState.tryFromPrimitive (b : Nat) : Option AccountState :=
  if b = 0 then some .Uninitialized
  else if b = 1 then some .Initialized
  else none

/-- `Mint` of src/state.rs. -/
structure Mint where
  mint_authority : Option Pubkey
  supply : Nat
  decimals : Nat
  is_initialized : Bool
deriving DecidableEq, Repr

/-- `Account` of src/state.rs. -/
structure Account where
  mint : Pubkey
  owner : Pubkey
  amount : Nat
  delegate : Option Pubkey
  delegated_amount : Nat
  state : AccountState
deriving DecidableEq, Repr

/-- `Account::is_initialized` of src/state.rs: `state != Uninitialized`. -/
def Account.is_init (a : Account) : Bool := a.state ≠ AccountState.Uninitialized

/-- `pack_coption_key` of src/state.rs: write a 4-byte tag then, when
present, the 32 key bytes; when absent only the tag is written and the 32
address bytes of the destination stay as they were. `dst` is the current
36-byte destination slice. -/
def pack_coption_key (src : Option Pubkey) (dst : List Nat) : List Nat :=
  match src with
  | some key => [1, 0, 0, 0] ++ key
  | none => [0, 0, 0, 0] ++ dst.drop 4

/-- `unpack_coption_key` of src/state.rs: a 4-byte tag `0,0,0,0` means
absent, `1,0,0,0` means present followed by the 32 key bytes; any other tag
is `InvalidAccountData`. `src` is the 36-byte source slice. -/
def unpack_coption_key (src : List Nat) : Except ProgError (Option Pubkey) :=
  if slice src 0 4 = [0, 0, 0, 0] then .ok none
  else if slice src 0 4 = [1, 0, 0, 0] then .ok (some (slice src 4 32))
  else .error .InvalidAccountData

/-- `Mint::unpack_from_slice` of src/state.rs, on a 46-byte source:
fields at offsets 0 (36-byte optional authority), 36 (8-byte supply),
44 (decimals), 45 (is_initialized flag, 0 or 1 only). -/
def Mint.unpack_from_slice (src : List Nat) : Except ProgError Mint :=
  match unpack_coption_key (slice src 0 36) with
  | .error e => .error e
  | .ok mint_authority =>
    match byteAt src 45 with
    | 0 => .ok ⟨mint_authority, u64FromLE (slice src 36 8), byteAt src 44, false⟩
    | 1 => .ok ⟨mint_authority, u64FromLE (slice src 36 8), byteAt src 44, true⟩
    | _ => .error .InvalidAccountData

/-- `Mint::pack_into_slice` of src/state.rs: overwrite the four field
regions of the 46-byte destination buffer `dst`. -/
def Mint.pack_into_slice (m : Mint) (dst : List Nat) : List Nat :=
  pack_coption_key m.mint_authority (slice dst 0 36) ++ u64ToLE m.supply ++
    [m.decimals] ++ [if m.is_initialized then 1 else 0]

/-- `Account::unpack_from_slice` of src/state.rs, on a 117-byte source:
mint at 0, owner at 32, amount at 64, optional delegate at 72,
delegated_amount at 108, state byte at 116. -/
def Account.unpack_from_slice (src : List Nat) : Except ProgError Account :=
  match unpack_coption_key (slice src 72 36) with
  | .error e => .error e
  | .ok delegate =>
    match AccountState.tryFromPrimitive (byteAt src 116) with
    | none => .error .InvalidAccountData
    | some state =>
      .ok ⟨slice src 0 32, slice src 32 32, u64FromLE (slice src 64 8),
           delegate, u64FromLE (slice src 108 8), state⟩

/-- `Account::pack_into_slice` of src/state.rs: overwrite the six field
regions of the 117-byte destination buffer `dst`. -/
def Account.pack_into_slice (a : Account) (dst : List Nat) : List Nat :=
  a.mint ++ a.owner ++ u64ToLE a.amount ++
    pack_coption_key a.delegate (slice dst 72 36) ++
    u64ToLE a.delegated_amount ++ [a.state.toByte]

/-- Modelled from the spec: `Pack::unpack_unchecked` (the tolerant decode),
a trait default of the external `solana_program` crate, not under src/.
It checks the exact record length (`InvalidRecordData` on mismatch, i.e.
`ProgramError::InvalidAccountData`) and then calls `unpack_from_slice`.
Confirmed by the wrong-length tests in src/processor.rs. -/
def Mint.unpack_unchecked (input : List Nat) : Except ProgError Mint :=
  if input.length = 46 then Mint.unpack_from_slice input
  else .error .InvalidAccountData

/-- Modelled from the spec: `Pack::unpack` (the strict decode) of
`solana_program`: tolerant decode followed by an `is_initialized` check,
failing with `UninitializedAccount` on an uninitialized record. -/
def Mint.unpack (input : List Nat) : Except ProgError Mint :=
  match Mint.unpack_unchecked input with
  | .error e => .error e
  | .ok m => if m.is_initialized then .ok m else .error .UninitializedAccount

/-- Modelled from the spec: `Pack::pack` of `solana_program`: check the
exact record length, then `pack_into_slice`; the destination is mutated
only on success. -/
def Mint.pack (m : Mint) (dst : List Nat) : Except ProgError (List Nat) :=
  if dst.length = 46 then .ok (m.pack_into_slice dst)
  else .error .InvalidAccountData

/-- Modelled from the spec: tolerant decode for `Account`
(see `Mint.unpack_unchecked`). -/
def Account.unpack_unchecked (input : List Nat) : Except ProgError Account :=
  if input.length = 117 then Account.unpack_from_slice input
  else .error .InvalidAccountData

/-- Modelled from the spec: strict decode for `Account`
(see `Mint.unpack`); `is_initialized` is `state != Uninitialized`. -/
def Account.unpack (input : List Nat) : Except ProgError Account :=
  match Account.unpack_unchecked input with
  | .error e => .error e
  | .ok a => if a.is_init then .ok a else .error .UninitializedAccount

/-- Modelled from the spec: `Pack::pack` for `Account`
(see `Mint.pack`). -/
def Account.pack (a : Account) (dst : List Nat) : Except ProgError (List Nat) :=
  if dst.length = 117 then .ok (a.pack_into_slice dst)
  else .error .InvalidAccountData

/-- `TokenInstruction` of src/instruction.rs. -/
inductive TokenInstruction where
  | InitializeMint (decimals : Nat) (mint_authority : Pubkey)
  | InitializeAccount
  | Transfer (amount : Nat)
  | Approve (amount : Nat)
  | MintTo (amount : Nat)
  | Burn (amount : Nat)
deriving DecidableEq, Repr

/-- `TokenInstruction::pack` of src/instruction.rs: one tag byte, then the
payload of the variant. -/
def TokenInstruction.pack : TokenInstruction → List Nat
  | .InitializeMint decimals mint_authority => 0 :: decimals :: mint_authority
  | .InitializeAccount => [1]
  | .Transfer amount => 2 :: u64ToLE amount
  | .Approve amount => 3 :: u64ToLE amount
  | .MintTo amount => 4 :: u64ToLE amount
  | .Burn amount => 5 :: u64ToLE amount

/-- `TokenInstruction::unpack_pubkey` of src/instruction.rs: split off
32 bytes, or fail with `InvalidInstruction`. -/
def unpack_pubkey (input : List Nat) : Except ProgError (Pubkey × List Nat) :=
  if 32 ≤ input.length then .ok (input.take 32, input.drop 32)
  else .error (.Custom .InvalidInstruction)

/-- `TokenInstruction::unpack` of src/instruction.rs: the leading byte
selects the variant (0-5); variant 0 then reads one decimals byte and a
32-byte authority, variants 2-5 read an 8-byte little-endian amount;
trailing bytes beyond what a variant consumes are ignored. -/
def TokenInstruction.unpack (input : List Nat) : Except ProgError TokenInstruction :=
  match input with
  | [] => .error (.Custom .InvalidInstruction)
  | tag :: rest =>
    if tag = 0 then
      match rest with
      | [] => .error (.Custom .InvalidInstruction)
      | decimals :: rest2 =>
        match unpack_pubkey rest2 with
        | .error e => .error e
        | .ok (mint_authority, _) => .ok (.InitializeMint decimals mint_authority)
    else if tag = 1 then .ok .InitializeAccount
    else if tag = 2 ∨ tag = 3 ∨ tag = 4 ∨ tag = 5 then
      if 8 ≤ rest.length then
        if tag = 2 then .ok (.Transfer (u64FromLE (rest.take 8)))
        else if tag = 3 then .ok (.Approve (u64FromLE (rest.take 8)))
        else if tag = 4 then .ok (.MintTo (u64FromLE (rest.take 8)))
        else .ok (.Burn (u64FromLE (rest.take 8)))
      else .error (.Custom .InvalidInstruction)
    else .error (.Custom .InvalidInstruction)

/-- A record handle as the processor sees it (the relevant fields of
`solana_program::account_info::AccountInfo`): declared address, the
authenticated-signer flag, and the current raw bytes. The rent sysvar
handle of the two initialize operations is abstracted into an
externally-computed rent-exemption fact, per the collaborator interface
of the spec. -/
structure AccountInfo where
  key : Pubkey
  is_signer : Bool
  data : List Nat
deriving DecidableEq, Repr

/-- `u64::checked_add`: `none` exactly when the sum leaves u64 range. -/
def checked_add (a b : Nat) : Option Nat :=
  if a + b < 2 ^ 64 then some (a + b) else none

/-- `u64::checked_sub`: `none` exactly when the subtraction would go
below zero. -/
def checked_sub (a b : Nat) : Option Nat :=
  if b ≤ a then some (a - b) else none

/-- `Processor::validate_owner` of src/processor.rs: the expected address
must equal the handle address, and the handle must be a signer. -/
def validate_owner (expected_owner : Pubkey) (owner_account_info : AccountInfo) :
    Except ProgError Unit :=
  if expected_owner ≠ owner_account_info.key then .error (.Custom .OwnerMismatch)
  else if ¬ owner_account_info.is_signer then .error .MissingRequiredSignature
  else .ok ()

/-- The delegate-or-owner authorization branch shared verbatim by
`process_transfer` and `process_burn` (src/processor.rs): when the
authority handle matches the source delegate, validate the delegate
signer, require the delegated allowance to cover `amount`, decrement it,
and clear the delegate when it reaches exactly 0; otherwise validate the
owner signer. Returns the updated in-memory source account. -/
def authorize_source (source_account : Account) (authority_info : AccountInfo)
    (amount : Nat) : Except ProgError Account :=
  match source_account.delegate with
  | some delegate =>
    if authority_info.key = delegate then
      match validate_owner delegate authority_info with
      | .error e => .error e
      | .ok _ =>
        if source_account.delegated_amount < amount then
          .error (.Custom .InsufficientFunds)
        else
          match checked_sub source_account.delegated_amount amount with
          | none => .error (.Custom .Overflow)
          | some d =>
            .ok { source_account with
                  delegated_amount := d,
                  delegate := if d = 0 then none else source_account.delegate }
    else
      match validate_owner source_account.owner authority_info with
      | .error e => .error e
      | .ok _ => .ok source_account
  | none =>
    match validate_owner source_account.owner authority_info with
    | .error e => .error e
    | .ok _ => .ok source_account

/-- `Processor::process_transfer` of src/processor.rs, as a transformer
of the two record buffers: the result is the outcome paired with the
final bytes of the source and destination records, buffer writes applied
at the point the source performs them (the two trailing `Account::pack`
calls). -/
def process_transfer (source_account_info dest_account_info authority_info : AccountInfo)
    (amount : Nat) : Except ProgError Unit × List Nat × List Nat :=
  if source_account_info.key = dest_account_info.key then
    (.error (.Custom .SelfTransfer), source_account_info.data, dest_account_info.data)
  else
    match Account.unpack source_account_info.data with
    | .error e => (.error e, source_account_info.data, dest_account_info.data)
    | .ok source_account =>
      match Account.unpack dest_account_info.data with
      | .error e => (.error e, source_account_info.data, dest_account_info.data)
      | .ok dest_account =>
        if source_account.amount < amount then
          (.error (.Custom .InsufficientFunds), source_account_info.data, dest_account_info.data)
        else if source_account.mint ≠ dest_account.mint then
          (.error (.Custom .MintMismatch), source_account_info.data, dest_account_info.data)
        else
          match authorize_source source_account authority_info amount with
          | .error e => (.error e, source_account_info.data, dest_account_info.data)
          | .ok source_account1 =>
            match checked_sub source_account1.amount amount with
            | none => (.error (.Custom .Overflow), source_account_info.data, dest_account_info.data)
            | some src_amt =>
              match checked_add dest_account.amount amount with
              | none => (.error (.Custom .Overflow), source_account_info.data, dest_account_info.data)
              | some dst_amt =>
                match Account.pack { source_account1 with amount := src_amt }
                    source_account_info.data with
                | .error e => (.error e, source_account_info.data, dest_account_info.data)
                | .ok new_source_data =>
                  match Account.pack { dest_account with amount := dst_amt }
                      dest_account_info.data with
                  | .error e => (.error e, new_source_data, dest_account_info.data)
                  | .ok new_dest_data => (.ok (), new_source_data, new_dest_data)

/-- `Processor::process_approve` of src/processor.rs: owner-validated
unconditional replacement of the delegation, returning the final source
record bytes. -/
def process_approve (source_account_info delegate_info owner_info : AccountInfo)
    (amount : Nat) : Except ProgError Unit × List Nat :=
  match Account.unpack source_account_info.data with
  | .error e => (.error e, source_account_info.data)
  | .ok source_account =>
    match validate_owner source_account.owner owner_info with
    | .error e => (.error e, source_account_info.data)
    | .ok _ =>
      match Account.pack { source_account with
          delegate := some delegate_info.key,
          delegated_amount := amount } source_account_info.data with
      | .error e => (.error e, source_account_info.data)
      | .ok new_source_data => (.ok (), new_source_data)

/-- `Processor::process_mint_to` of src/processor.rs, returning the final
bytes of the mint record and the destination record (dest is written
first, then the mint). -/
def process_mint_to (mint_info dest_account_info owner_info : AccountInfo)
    (amount : Nat) : Except ProgError Unit × List Nat × List Nat :=
  match Account.unpack dest_account_info.data with
  | .error e => (.error e, mint_info.data, dest_account_info.data)
  | .ok dest_account =>
    if mint_info.key ≠ dest_account.mint then
      (.error (.Custom .MintMismatch), mint_info.data, dest_account_info.data)
    else
      match Mint.unpack mint_info.data with
      | .error e => (.error e, mint_info.data, dest_account_info.data)
      | .ok mint =>
        match mint.mint_authority with
        | none => (.error (.Custom .FixedSupply), mint_info.data, dest_account_info.data)
        | some mint_authority =>
          match validate_owner mint_authority owner_info with
          | .error e => (.error e, mint_info.data, dest_account_info.data)
          | .ok _ =>
            match checked_add dest_account.amount amount with
            | none => (.error (.Custom .Overflow), mint_info.data, dest_account_info.data)
            | some dst_amt =>
              match checked_add mint.supply amount with
              | none => (.error (.Custom .Overflow), mint_info.data, dest_account_info.data)
              | some new_supply =>
                match Account.pack { dest_account with amount := dst_amt }
                    dest_account_info.data with
                | .error e => (.error e, mint_info.data, dest_account_info.data)
                | .ok new_dest_data =>
                  match Mint.pack { mint with supply := new_supply } mint_info.data with
                  | .error e => (.error e, mint_info.data, new_dest_data)
                  | .ok new_mint_data => (.ok (), new_mint_data, new_dest_data)

/-- `Processor::process_burn` of src/processor.rs, returning the final
bytes of the source record and the mint record (source is written first,
then the mint). -/
def process_burn (source_account_info mint_info authority_info : AccountInfo)
    (amount : Nat) : Except ProgError Unit × List Nat × List Nat :=
  match Account.unpack source_account_info.data with
  | .error e => (.error e, source_account_info.data, mint_info.data)
  | .ok source_account =>
    if source_account.amount < amount then
      (.error (.Custom .InsufficientFunds), source_account_info.data, mint_info.data)
    else if mint_info.key ≠ source_account.mint then
      (.error (.Custom .MintMismatch), source_account_info.data, mint_info.data)
    else
      match authorize_source source_account authority_info amount with
      | .error e => (.error e, source_account_info.data, mint_info.data)
      | .ok source_account1 =>
        match checked_sub source_account1.amount amount with
        | none => (.error (.Custom .Overflow), source_account_info.data, mint_info.data)
        | some src_amt =>
          match Mint.unpack mint_info.data with
          | .error e => (.error e, source_account_info.data, mint_info.data)
          | .ok mint =>
            match checked_sub mint.supply amount with
            | none => (.error (.Custom .Overflow), source_account_info.data, mint_info.data)
            | some new_supply =>
              match Account.pack { source_account1 with amount := src_amt }
                  source_account_info.data with
              | .error e => (.error e, source_account_info.data, mint_info.data)
              | .ok new_source_data =>
                match Mint.pack { mint with supply := new_supply } mint_info.data with
                | .error e => (.error e, new_source_data, mint_info.data)
                | .ok new_mint_data => (.ok (), new_source_data, new_mint_data)

/-- `Processor::process_initialize_mint` of src/processor.rs, with the
rent-exemption fact supplied by the environment (the `Rent` sysvar handle
is external to the core), returning the final mint record bytes. -/
def process_initialize_mint (mint_info : AccountInfo) (rent_exempt : Bool)
    (decimals : Nat) (mint_authority : Pubkey) : Except ProgError Unit × List Nat :=
  match Mint.unpack_unchecked mint_info.data with
  | .error e => (.error e, mint_info.data)
  | .ok mint =>
    if mint.is_initialized then (.error (.Custom .AlreadyInUse), mint_info.data)
    else if ¬ rent_exempt then (.error (.Custom .NotRentExempt), mint_info.data)
    else
      match Mint.pack { mint with
          mint_authority := some mint_authority,
          decimals := decimals,
          is_initialized := true } mint_info.data with
      | .error e => (.error e, mint_info.data)
      | .ok new_mint_data => (.ok (), new_mint_data)

/-- `Processor::process_initialize_account` of src/processor.rs, with the
rent-exemption fact supplied by the environment, returning the final
account record bytes (the mint record is read, never written). -/
def process_initialize_account (new_account_info mint_info owner_info : AccountInfo)
    (rent_exempt : Bool) : Except ProgError Unit × List Nat :=
  match Account.unpack_unchecked new_account_info.data with
  | .error e => (.error e, new_account_info.data)
  | .ok account =>
    if account.is_init then (.error (.Custom .AlreadyInUse), new_account_info.data)
    else if ¬ rent_exempt then (.error (.Custom .NotRentExempt), new_account_info.data)
    else
      match Mint.unpack mint_info.data with
      | .error _ => (.error (.Custom .InvalidMint), new_account_info.data)
      | .ok _ =>
        match Account.pack { account with
            mint := mint_info.key,
            owner := owner_info.key,
            delegate := none,
            delegated_amount := 0,
            state := .Initialized,
            amount := 0 } new_account_info.data with
        | .error e => (.error e, new_account_info.data)
        | .ok new_account_data => (.ok (), new_account_data)

/-! ### Validity predicates and codec lemmas -/

/-- The Rust type invariants of a `Mint` value: the authority, when
present, is a 32-byte key; `supply` is a u64; `decimals` a u8. -/
def Mint.Valid (m : Mint) : Prop :=
  (∀ k, m.mint_authority = some k → k.length = 32) ∧ m.supply < 2 ^ 64 ∧ m.decimals < 256

/-- The Rust type invariants of an `Account` value. -/
def Account.Valid (a : Account) : Prop :=
  a.mint.length = 32 ∧ a.owner.length = 32 ∧ a.amount < 2 ^ 64 ∧
    (∀ k, a.delegate = some k → k.length = 32) ∧ a.delegated_amount < 2 ^ 64

theorem u64ToLE_length (n : Nat) : (u64ToLE n).length = 8 := rfl

theorem u64FromLE_u64ToLE (n : Nat) (h : n < 2 ^ 64) : u64FromLE (u64ToLE n) = n := by
  simp only [u64ToLE, u64FromLE]
  norm_num
  omega

theorem u64FromLE_lt (l : List Nat) (hb : IsBytes l) : u64FromLE l < 2 ^ 64 := by
  unfold u64FromLE
  split
  case _ b0 b1 b2 b3 b4 b5 b6 b7 =>
    have h0 := hb b0 (by simp)
    have h1 := hb b1 (by simp)
    have h2 := hb b2 (by simp)
    have h3 := hb b3 (by simp)
    have h4 := hb b4 (by simp)
    have h5 := hb b5 (by simp)
    have h6 := hb b6 (by simp)
    have h7 := hb b7 (by simp)
    norm_num
    omega
  case _ => norm_num

theorem IsBytes.slice {l : List Nat} (h : IsBytes l) (i n : Nat) :
    IsBytes (TestToken.slice l i n) := by
  intro b hb
  exact h b (List.mem_of_mem_drop (List.mem_of_mem_take hb))

theorem slice_length (l : List Nat) (i n : Nat) :
    (slice l i n).length = min n (l.length - i) := by
  simp [slice]

theorem pack_coption_key_length (src : Option Pubkey) (dst : List Nat)
    (hk : ∀ k, src = some k → k.length = 32) (hd : dst.length = 36) :
    (pack_coption_key src dst).length = 36 := by
  cases src with
  | some k => simp [pack_coption_key, hk k rfl]
  | none => simp [pack_coption_key]; omega

theorem unpack_pack_coption (src : Option Pubkey) (dst : List Nat)
    (hk : ∀ k, src = some k → k.length = 32) :
    unpack_coption_key (pack_coption_key src dst) = .ok src := by
  cases src with
  | some k =>
    have hk32 := hk k rfl
    simp [pack_coption_key, unpack_coption_key, slice, hk32]
  | none => simp [pack_coption_key, unpack_coption_key, slice]

theorem mint_pack_into_slice_length (m : Mint) (dst : List Nat)
    (hk : ∀ k, m.mint_authority = some k → k.length = 32) (hd : dst.length = 46) :
    (Mint.pack_into_slice m dst).length = 46 := by
  have h36 : (slice dst 0 36).length = 36 := by simp [slice_length, hd]
  simp [Mint.pack_into_slice, pack_coption_key_length _ _ hk h36, u64ToLE_length]

theorem account_pack_into_slice_length (a : Account) (dst : List Nat)
    (hm : a.mint.length = 32) (ho : a.owner.length = 32)
    (hk : ∀ k, a.delegate = some k → k.length = 32) (hd : dst.length = 117) :
    (Account.pack_into_slice a dst).length = 117 := by
  have h36 : (slice dst 72 36).length = 36 := by simp [slice_length, hd]
  simp [Account.pack_into_slice, pack_coption_key_length _ _ hk h36, u64ToLE_length, hm, ho]

theorem mint_unpack_from_slice_pack (m : Mint) (dst : List Nat) (hv : m.Valid)
    (hd : dst.length = 46) :
    Mint.unpack_from_slice (Mint.pack_into_slice m dst) = .ok m := by
  obtain ⟨hk, hs, _⟩ := hv
  have h36 : (slice dst 0 36).length = 36 := by simp [slice_length, hd]
  have hlen := pack_coption_key_length _ _ hk h36
  have hcop := unpack_pack_coption _ (slice dst 0 36) hk
  simp only [slice, List.drop_zero] at hlen hcop
  obtain ⟨ma, msup, mdec, minit⟩ := m
  cases minit <;>
    simp [Mint.pack_into_slice, Mint.unpack_from_slice, slice, byteAt,
      List.take_append_eq_append_take, List.drop_append_eq_append_drop,
      List.getElem?_append_right, List.getElem_append_right, hlen, hcop, u64ToLE_length,
      List.take_of_length_le, List.drop_eq_nil_of_le, u64FromLE_u64ToLE _ hs]

theorem account_unpack_from_slice_pack (a : Account) (dst : List Nat) (hv : a.Valid)
    (hd : dst.length = 117) :
    Account.unpack_from_slice (Account.pack_into_slice a dst) = .ok a := by
  obtain ⟨amint, aowner, aamt, adel, adela, ast⟩ := a
  obtain ⟨hm, ho, ham, hk, hda⟩ := hv
  have hm2 : amint.length = 32 := hm
  have ho2 : aowner.length = 32 := ho
  have ham2 : aamt < 2 ^ 64 := ham
  have hda2 : adela < 2 ^ 64 := hda
  have hk2 : ∀ k, adel = some k → k.length = 32 := hk
  have h36 : (slice dst 72 36).length = 36 := by simp [slice_length, hd]
  have hlen := pack_coption_key_length adel (slice dst 72 36) hk2 h36
  have hcop := unpack_pack_coption adel (slice dst 72 36) hk2
  simp only [slice] at hlen hcop
  cases ast <;>
    simp [Account.pack_into_slice, Account.unpack_from_slice, slice, byteAt,
      AccountState.toByte, AccountState.tryFromPrimitive,
      List.take_append_eq_append_take, List.drop_append_eq_append_drop,
      List.getElem?_append_right, List.getElem_append_right, hlen, hcop, u64ToLE_length,
      hm2, ho2, List.take_of_length_le, List.drop_eq_nil_of_le,
      u64FromLE_u64ToLE _ ham2, u64FromLE_u64ToLE _ hda2]

theorem mint_unpack_unchecked_pack (m : Mint) (dst : List Nat) (hv : m.Valid)
    (hd : dst.length = 46) :
    Mint.unpack_unchecked (Mint.pack_into_slice m dst) = .ok m := by
  simp [Mint.unpack_unchecked, mint_pack_into_slice_length m dst hv.1 hd,
    mint_unpack_from_slice_pack m dst hv hd]

theorem account_unpack_unchecked_pack (a : Account) (dst : List Nat) (hv : a.Valid)
    (hd : dst.length = 117) :
    Account.unpack_unchecked (Account.pack_into_slice a dst) = .ok a := by
  simp [Account.unpack_unchecked,
    account_pack_into_slice_length a dst hv.1 hv.2.1 hv.2.2.2.1 hd,
    account_unpack_from_slice_pack a dst hv hd]

theorem mint_unpack_unchecked_length {buf : List Nat} {m : Mint}
    (h : Mint.unpack_unchecked buf = .ok m) : buf.length = 46 := by
  by_contra hne
  simp [Mint.unpack_unchecked, hne] at h

theorem account_unpack_unchecked_length {buf : List Nat} {a : Account}
    (h : Account.unpack_unchecked buf = .ok a) : buf.length = 117 := by
  by_contra hne
  simp [Account.unpack_unchecked, hne] at h

theorem mint_unpack_ok {buf : List Nat} {m : Mint} (h : Mint.unpack buf = .ok m) :
    Mint.unpack_unchecked buf = .ok m ∧ m.is_initialized = true := by
  unfold Mint.unpack at h
  cases hu : Mint.unpack_unchecked buf with
  | error e => rw [hu] at h; exact absurd h (by simp)
  | ok b =>
    rw [hu] at h
    by_cases hb : b.is_initialized = true
    · simp [hb] at h; subst h; exact ⟨rfl, hb⟩
    · simp [Bool.not_eq_true] at hb; simp [hb] at h

theorem account_unpack_ok {buf : List Nat} {a : Account} (h : Account.unpack buf = .ok a) :
    Account.unpack_unchecked buf = .ok a ∧ a.is_init = true := by
  unfold Account.unpack at h
  cases hu : Account.unpack_unchecked buf with
  | error e => rw [hu] at h; exact absurd h (by simp)
  | ok b =>
    rw [hu] at h
    by_cases hb : b.is_init = true
    · simp [hb] at h; subst h; exact ⟨rfl, hb⟩
    · simp [Bool.not_eq_true] at hb; simp [hb] at h

theorem unpack_coption_key_ok {src : List Nat} {o : Option Pubkey}
    (h : unpack_coption_key src = .ok o) :
    o = none ∨ o = some (slice src 4 32) := by
  unfold unpack_coption_key at h
  split at h
  · simp at h; exact Or.inl h.symm
  · split at h
    · simp at h; exact Or.inr h.symm
    · exact absurd h (by simp)

theorem account_unpack_from_slice_fields {src : List Nat} {a : Account}
    (h : Account.unpack_from_slice src = .ok a) :
    a.mint = slice src 0 32 ∧ a.owner = slice src 32 32 ∧
      a.amount = u64FromLE (slice src 64 8) ∧
      unpack_coption_key (slice src 72 36) = .ok a.delegate ∧
      a.delegated_amount = u64FromLE (slice src 108 8) := by
  unfold Account.unpack_from_slice at h
  cases hcop : unpack_coption_key (slice src 72 36) with
  | error e => rw [hcop] at h; exact absurd h (by simp)
  | ok del =>
    rw [hcop] at h
    cases hst : AccountState.tryFromPrimitive (byteAt src 116) with
    | none => rw [hst] at h; exact absurd h (by simp)
    | some st =>
      rw [hst] at h
      simp only [Except.ok.injEq] at h
      subst h
      exact ⟨rfl, rfl, rfl, rfl, rfl⟩

theorem account_unpack_unchecked_valid {buf : List Nat} {a : Account}
    (hb : IsBytes buf) (h : Account.unpack_unchecked buf = .ok a) : a.Valid := by
  have hlen := account_unpack_unchecked_length h
  unfold Account.unpack_unchecked at h
  rw [if_pos hlen] at h
  obtain ⟨hm, ho, ham, hcop, hda⟩ := account_unpack_from_slice_fields h
  refine ⟨?_, ?_, ?_, ?_, ?_⟩
  · rw [hm]; simp [slice_length, hlen] <;> omega
  · rw [ho]; simp [slice_length, hlen] <;> omega
  · exact ham ▸ u64FromLE_lt _ (hb.slice 64 8)
  · intro k hk
    rcases unpack_coption_key_ok hcop with hd | hd
    · rw [hk] at hd; exact absurd hd (by simp)
    · rw [hk] at hd
      simp only [Option.some.injEq] at hd
      rw [hd]
      simp [slice_length, hlen] <;> omega
  · exact hda ▸ u64FromLE_lt _ (hb.slice 108 8)

theorem account_unpack_valid {buf : List Nat} {a : Account}
    (hb : IsBytes buf) (h : Account.unpack buf = .ok a) : a.Valid :=
  account_unpack_unchecked_valid hb (account_unpack_ok h).1

theorem account_unpack_length {buf : List Nat} {a : Account}
    (h : Account.unpack buf = .ok a) : buf.length = 117 :=
  account_unpack_unchecked_length (account_unpack_ok h).1

theorem byteAt_lt {buf : List Nat} (hb : IsBytes buf) (i : Nat) : byteAt buf i < 256 := by
  unfold byteAt
  rw [List.getD_eq_getElem?_getD]
  rcases hg : buf[i]? with _ | b
  · simp
  · simp only [Option.getD_some]
    exact hb b (List.getElem?_mem hg)

theorem mint_unpack_from_slice_fields {src : List Nat} {m : Mint}
    (h : Mint.unpack_from_slice src = .ok m) :
    unpack_coption_key (slice src 0 36) = .ok m.mint_authority ∧
      m.supply = u64FromLE (slice src 36 8) ∧ m.decimals = byteAt src 44 := by
  unfold Mint.unpack_from_slice at h
  cases hcop : unpack_coption_key (slice src 0 36) with
  | error e => rw [hcop] at h; exact absurd h (by simp)
  | ok auth =>
    rw [hcop] at h
    cases hbyte : byteAt src 45 with
    | zero =>
      rw [hbyte] at h
      simp only [Except.ok.injEq] at h
      subst h
      exact ⟨rfl, rfl, rfl⟩
    | succ n =>
      rw [hbyte] at h
      cases n with
      | zero =>
        simp only [Except.ok.injEq] at h
        subst h
        exact ⟨rfl, rfl, rfl⟩
      | succ p => exact absurd h (by simp)

theorem mint_unpack_unchecked_valid {buf : List Nat} {m : Mint}
    (hb : IsBytes buf) (h : Mint.unpack_unchecked buf = .ok m) : m.Valid := by
  have hlen := mint_unpack_unchecked_length h
  unfold Mint.unpack_unchecked at h
  rw [if_pos hlen] at h
  obtain ⟨hcop, hs, hd⟩ := mint_unpack_from_slice_fields h
  refine ⟨?_, ?_, ?_⟩
  · intro k hk
    rcases unpack_coption_key_ok hcop with hc | hc
    · rw [hk] at hc; exact absurd hc (by simp)
    · rw [hk] at hc
      simp only [Option.some.injEq] at hc
      rw [hc]
      simp [slice_length, hlen] <;> omega
  · exact hs ▸ u64FromLE_lt _ (hb.slice 36 8)
  · exact hd ▸ byteAt_lt hb 44

theorem mint_unpack_valid {buf : List Nat} {m : Mint}
    (hb : IsBytes buf) (h : Mint.unpack buf = .ok m) : m.Valid :=
  mint_unpack_unchecked_valid hb (mint_unpack_ok h).1

theorem mint_unpack_length {buf : List Nat} {m : Mint}
    (h : Mint.unpack buf = .ok m) : buf.length = 46 :=
  mint_unpack_unchecked_length (mint_unpack_ok h).1

/-- The Rust type invariants of a `TokenInstruction` value: a 32-byte
authority key, u8 decimals, u64 amounts. -/
def TokenInstruction.Valid : TokenInstruction → Prop
  | .InitializeMint decimals mint_authority =>
      mint_authority.length = 32 ∧ decimals < 256
  | .InitializeAccount => True
  | .Transfer amount => amount < 2 ^ 64
  | .Approve amount => amount < 2 ^ 64
  | .MintTo amount => amount < 2 ^ 64
  | .Burn amount => amount < 2 ^ 64

/-! ### Claim theorems -/

/-- C5: for every valid Mint and Account value, encoding into a buffer of
the record length (46 bytes for Mint, 117 for Account) produces exactly
that many bytes and decoding them yields the original value; decoding a
buffer of any other length fails with the invalid-record-data error. -/
theorem record_codec_roundtrip :
    (∀ (m : Mint) (dst : List Nat), m.Valid → dst.length = 46 →
        (Mint.pack_into_slice m dst).length = 46 ∧
        Mint.unpack_unchecked (Mint.pack_into_slice m dst) = .ok m) ∧
    (∀ (a : Account) (dst : List Nat), a.Valid → dst.length = 117 →
        (Account.pack_into_slice a dst).length = 117 ∧
        Account.unpack_unchecked (Account.pack_into_slice a dst) = .ok a) ∧
    (∀ buf : List Nat, buf.length ≠ 46 →
        Mint.unpack_unchecked buf = .error .InvalidAccountData) ∧
    (∀ buf : List Nat, buf.length ≠ 117 →
        Account.unpack_unchecked buf = .error .InvalidAccountData) := by
  refine ⟨?_, ?_, ?_, ?_⟩
  · exact fun m dst hv hd =>
      ⟨mint_pack_into_slice_length m dst hv.1 hd, mint_unpack_unchecked_pack m dst hv hd⟩
  · exact fun a dst hv hd =>
      ⟨account_pack_into_slice_length a dst hv.1 hv.2.1 hv.2.2.2.1 hd,
       account_unpack_unchecked_pack a dst hv hd⟩
  · intro buf h; simp [Mint.unpack_unchecked, h]
  · intro buf h; simp [Account.unpack_unchecked, h]

/-- Witness for C5: the codec laws at one concrete Mint, one concrete
Account, and two wrong-length buffers. -/
theorem record_codec_roundtrip_witness :
    Mint.unpack_unchecked
        (Mint.pack_into_slice ⟨some (List.replicate 32 7), 5, 2, true⟩ (List.replicate 46 0)) =
      .ok ⟨some (List.replicate 32 7), 5, 2, true⟩ ∧
    Account.unpack_unchecked
        (Account.pack_into_slice
          ⟨List.replicate 32 1, List.replicate 32 2, 3, some (List.replicate 32 4), 6, .Initialized⟩
          (List.replicate 117 0)) =
      .ok ⟨List.replicate 32 1, List.replicate 32 2, 3, some (List.replicate 32 4), 6, .Initialized⟩ ∧
    Mint.unpack_unchecked [0] = .error .InvalidAccountData ∧
    Account.unpack_unchecked (List.replicate 46 0) = .error .InvalidAccountData := by
  refine ⟨?_, ?_, ?_, ?_⟩
  · exact (record_codec_roundtrip.1 ⟨some (List.replicate 32 7), 5, 2, true⟩
      (List.replicate 46 0) (by refine ⟨?_, by norm_num, by norm_num⟩
                                intro k hk
                                injection hk with h
                                rw [← h]; simp) (by simp)).2
  · exact (record_codec_roundtrip.2.1
      ⟨List.replicate 32 1, List.replicate 32 2, 3, some (List.replicate 32 4), 6, .Initialized⟩
      (List.replicate 117 0) (by refine ⟨by simp, by simp, by norm_num, ?_, by norm_num⟩
                                 intro k hk
                                 injection hk with h
                                 rw [← h]; simp) (by simp)).2
  · exact record_codec_roundtrip.2.2.1 [0] (by simp)
  · exact record_codec_roundtrip.2.2.2 (List.replicate 46 0) (by simp)

/-- C7: tolerant decode of an all-zero 46-byte buffer yields an
uninitialized Mint with no authority and zero supply; tolerant decode of
an all-zero 117-byte buffer yields an Account in state Uninitialized with
no delegate and all amounts zero. -/
theorem all_zero_tolerant_decode :
    Mint.unpack_unchecked (List.replicate 46 0) = .ok ⟨none, 0, 0, false⟩ ∧
    Account.unpack_unchecked (List.replicate 117 0) =
      .ok ⟨List.replicate 32 0, List.replicate 32 0, 0, none, 0, .Uninitialized⟩ := by
  constructor <;> rfl

/-- C6: decoding the encoding of any valid instruction followed by any
trailing bytes yields the instruction back (trailing bytes are ignored);
the empty buffer, a buffer shorter than its leading tag requires, and a
tag byte outside 0..5 all fail with the invalid-instruction-data error. -/
theorem instruction_codec_roundtrip :
    (∀ (i : TokenInstruction) (extra : List Nat), i.Valid →
        TokenInstruction.unpack (i.pack ++ extra) = .ok i) ∧
    TokenInstruction.unpack [] = .error (.Custom .InvalidInstruction) ∧
    (∀ rest : List Nat, rest.length < 33 →
        TokenInstruction.unpack (0 :: rest) = .error (.Custom .InvalidInstruction)) ∧
    (∀ (tag : Nat) (rest : List Nat), (tag = 2 ∨ tag = 3 ∨ tag = 4 ∨ tag = 5) →
        rest.length < 8 →
        TokenInstruction.unpack (tag :: rest) = .error (.Custom .InvalidInstruction)) ∧
    (∀ (tag : Nat) (rest : List Nat), 5 < tag →
        TokenInstruction.unpack (tag :: rest) = .error (.Custom .InvalidInstruction)) := by
  refine ⟨?_, rfl, ?_, ?_, ?_⟩
  · intro i extra hv
    cases i with
    | InitializeMint decimals mint_authority =>
      obtain ⟨hk, _⟩ := hv
      simp [TokenInstruction.pack, TokenInstruction.unpack, unpack_pubkey, hk,
        List.take_left' hk]
    | InitializeAccount => simp [TokenInstruction.pack, TokenInstruction.unpack]
    | Transfer amount =>
      simp [TokenInstruction.pack, TokenInstruction.unpack, u64ToLE_length,
        List.take_left' (u64ToLE_length amount), u64FromLE_u64ToLE amount hv]
    | Approve amount =>
      simp [TokenInstruction.pack, TokenInstruction.unpack, u64ToLE_length,
        List.take_left' (u64ToLE_length amount), u64FromLE_u64ToLE amount hv]
    | MintTo amount =>
      simp [TokenInstruction.pack, TokenInstruction.unpack, u64ToLE_length,
        List.take_left' (u64ToLE_length amount), u64FromLE_u64ToLE amount hv]
    | Burn amount =>
      simp [TokenInstruction.pack, TokenInstruction.unpack, u64ToLE_length,
        List.take_left' (u64ToLE_length amount), u64FromLE_u64ToLE amount hv]
  · intro rest hlen
    cases rest with
    | nil => rfl
    | cons d rest2 =>
      have h32 : ¬ (32 ≤ rest2.length) := by simp at hlen; omega
      simp [TokenInstruction.unpack, unpack_pubkey, h32]
  · intro tag rest htag hlen
    have h8 : ¬ (8 ≤ rest.length) := by omega
    rcases htag with h | h | h | h <;> subst h <;> simp [TokenInstruction.unpack, h8]
  · intro tag rest htag
    have h0 : ¬ (tag = 0) := by omega
    have h1 : ¬ (tag = 1) := by omega
    have h2 : ¬ (tag = 2 ∨ tag = 3 ∨ tag = 4 ∨ tag = 5) := by omega
    simp [TokenInstruction.unpack, h0, h1, h2]

/-- Witness for C6: roundtrip of a Transfer with two trailing junk bytes,
and failures of a truncated InitializeMint, a truncated Transfer, and an
unknown tag. -/
theorem instruction_codec_roundtrip_witness :
    TokenInstruction.unpack (TokenInstruction.pack (.Transfer 300) ++ [9, 9]) =
      .ok (.Transfer 300) ∧
    TokenInstruction.unpack [0, 2, 1, 1] = .error (.Custom .InvalidInstruction) ∧
    TokenInstruction.unpack [2, 44, 1] = .error (.Custom .InvalidInstruction) ∧
    TokenInstruction.unpack [6, 0, 0, 0, 0, 0, 0, 0, 0] =
      .error (.Custom .InvalidInstruction) := by
  refine ⟨?_, ?_, ?_, ?_⟩
  · exact instruction_codec_roundtrip.1 (.Transfer 300) [9, 9] (by norm_num [TokenInstruction.Valid])
  · exact instruction_codec_roundtrip.2.2.1 [2, 1, 1] (by simp)
  · exact instruction_codec_roundtrip.2.2.2.1 2 [44, 1] (by norm_num) (by simp)
  · exact instruction_codec_roundtrip.2.2.2.2 6 [0, 0, 0, 0, 0, 0, 0, 0] (by norm_num)

/-- C10: encoding an absent optional key writes only the 4-byte zero tag
and keeps the 32 address bytes of the destination buffer, while a present
key overwrites them; hence re-encoding an account whose delegate is none
into its old 117-byte buffer leaves the former delegate key bytes at
offsets 76..108 untouched, and decode ignores those bytes. -/
theorem coption_none_frame :
    (∀ dst : List Nat, pack_coption_key none dst = [0, 0, 0, 0] ++ dst.drop 4) ∧
    (∀ (k : Pubkey) (dst : List Nat), pack_coption_key (some k) dst = [1, 0, 0, 0] ++ k) ∧
    (∀ (a : Account) (dst : List Nat), a.delegate = none →
        a.mint.length = 32 → a.owner.length = 32 → dst.length = 117 →
        slice (Account.pack_into_slice a dst) 76 32 = slice dst 76 32) ∧
    (∀ junk : List Nat, unpack_coption_key ([0, 0, 0, 0] ++ junk) = .ok none) := by
  refine ⟨fun dst => rfl, fun k dst => rfl, ?_, ?_⟩
  · intro a dst hdel hm ho hd
    simp [Account.pack_into_slice, pack_coption_key, hdel, slice,
      List.drop_append_eq_append_drop, List.take_append_eq_append_take,
      hm, ho, u64ToLE_length, List.length_take, List.length_drop, hd,
      List.drop_drop, List.drop_take, List.take_take, List.drop_eq_nil_of_le]
  · intro junk
    simp [unpack_coption_key, slice]

/-- Witness for C10: re-encoding a delegate-free account into a buffer
holding a former delegate key (byte value 5 throughout) keeps those 32
bytes, and the decoded value is unaffected by them. -/
theorem coption_none_frame_witness :
    slice
        (Account.pack_into_slice
          ⟨List.replicate 32 1, List.replicate 32 2, 3, none, 0, .Initialized⟩
          (List.replicate 117 5))
        76 32 =
      slice (List.replicate 117 5) 76 32 := by
  exact coption_none_frame.2.2.1
    ⟨List.replicate 32 1, List.replicate 32 2, 3, none, 0, .Initialized⟩
    (List.replicate 117 5) rfl (by simp) (by simp) (by simp)

theorem account_pack_of_unpack {buf : List Nat} {a : Account}
    (h : Account.unpack buf = .ok a) (b : Account) :
    Account.pack b buf = .ok (b.pack_into_slice buf) := by
  simp [Account.pack, account_unpack_length h]

theorem account_pack_of_unpack_unchecked {buf : List Nat} {a : Account}
    (h : Account.unpack_unchecked buf = .ok a) (b : Account) :
    Account.pack b buf = .ok (b.pack_into_slice buf) := by
  simp [Account.pack, account_unpack_unchecked_length h]

theorem mint_pack_of_unpack {buf : List Nat} {m : Mint}
    (h : Mint.unpack buf = .ok m) (b : Mint) :
    Mint.pack b buf = .ok (b.pack_into_slice buf) := by
  simp [Mint.pack, mint_unpack_length h]

theorem mint_pack_of_unpack_unchecked {buf : List Nat} {m : Mint}
    (h : Mint.unpack_unchecked buf = .ok m) (b : Mint) :
    Mint.pack b buf = .ok (b.pack_into_slice buf) := by
  simp [Mint.pack, mint_unpack_unchecked_length h]

theorem transfer_frame (s d a : AccountInfo) (amt : Nat) :
    (process_transfer s d a amt).2 = (s.data, d.data) ∨
      (process_transfer s d a amt).1 = .ok () := by
  unfold process_transfer
  by_cases hkey : s.key = d.key
  · simp [hkey]
  simp only [if_neg hkey]
  rcases h1 : Account.unpack s.data with e1 | src
  · simp [h1]
  rcases h2 : Account.unpack d.data with e2 | dst
  · simp [h2]
  by_cases hf : src.amount < amt
  · simp [hf]
  simp only [if_neg hf]
  by_cases hm : src.mint ≠ dst.mint
  · simp [hm]
  simp only [if_neg hm]
  rcases h3 : authorize_source src a amt with e3 | src1
  · simp [h3]
  rcases h4 : checked_sub src1.amount amt with _ | v1
  · simp [h4]
  rcases h5 : checked_add dst.amount amt with _ | v2
  · simp [h4, h5]
  simp [h4, h5, account_pack_of_unpack h1, account_pack_of_unpack h2]

theorem approve_frame (s dl o : AccountInfo) (amt : Nat) :
    (process_approve s dl o amt).2 = s.data ∨
      (process_approve s dl o amt).1 = .ok () := by
  unfold process_approve
  rcases h1 : Account.unpack s.data with e1 | src
  · simp [h1]
  rcases h2 : validate_owner src.owner o with e2 | u
  · simp [h2]
  simp [h2, account_pack_of_unpack h1]

theorem mint_to_frame (mi di oi : AccountInfo) (amt : Nat) :
    (process_mint_to mi di oi amt).2 = (mi.data, di.data) ∨
      (process_mint_to mi di oi amt).1 = .ok () := by
  unfold process_mint_to
  rcases h1 : Account.unpack di.data with e1 | dst
  · simp [h1]
  by_cases hk : mi.key ≠ dst.mint
  · simp [hk]
  simp only [if_neg hk]
  rcases h2 : Mint.unpack mi.data with e2 | mint
  · simp [h2]
  rcases h3 : mint.mint_authority with _ | auth
  · simp [h3]
  rcases h4 : validate_owner auth oi with e4 | u
  · simp [h3, h4]
  rcases h5 : checked_add dst.amount amt with _ | v1
  · simp [h3, h4, h5]
  rcases h6 : checked_add mint.supply amt with _ | v2
  · simp [h3, h4, h5, h6]
  simp [h3, h4, h5, h6, account_pack_of_unpack h1, mint_pack_of_unpack h2]

theorem burn_frame (si mi ai : AccountInfo) (amt : Nat) :
    (process_burn si mi ai amt).2 = (si.data, mi.data) ∨
      (process_burn si mi ai amt).1 = .ok () := by
  unfold process_burn
  rcases h1 : Account.unpack si.data with e1 | src
  · simp [h1]
  by_cases hf : src.amount < amt
  · simp [hf]
  simp only [if_neg hf]
  by_cases hk : mi.key ≠ src.mint
  · simp [hk]
  simp only [if_neg hk]
  rcases h2 : authorize_source src ai amt with e2 | src1
  · simp [h2]
  rcases h3 : checked_sub src1.amount amt with _ | v1
  · simp [h3]
  rcases h4 : Mint.unpack mi.data with e4 | mint
  · simp [h3, h4]
  rcases h5 : checked_sub mint.supply amt with _ | v2
  · simp [h3, h4, h5]
  simp [h3, h4, h5, account_pack_of_unpack h1, mint_pack_of_unpack h4]

theorem init_mint_frame (mi : AccountInfo) (re : Bool) (dec : Nat) (auth : Pubkey) :
    (process_initialize_mint mi re dec auth).2 = mi.data ∨
      (process_initialize_mint mi re dec auth).1 = .ok () := by
  unfold process_initialize_mint
  rcases h1 : Mint.unpack_unchecked mi.data with e1 | mint
  · simp [h1]
  by_cases hi : mint.is_initialized
  · simp [hi]
  simp only [hi, if_neg]
  by_cases hr : re
  · simp [hi, hr, mint_pack_of_unpack_unchecked h1]
  · simp [hi, hr]

theorem init_account_frame (ni mi oi : AccountInfo) (re : Bool) :
    (process_initialize_account ni mi oi re).2 = ni.data ∨
      (process_initialize_account ni mi oi re).1 = .ok () := by
  unfold process_initialize_account
  rcases h1 : Account.unpack_unchecked ni.data with e1 | acct
  · simp [h1]
  by_cases hi : acct.is_init
  · simp [hi]
  by_cases hr : re
  · rcases h2 : Mint.unpack mi.data with e2 | mint
    · simp [hi, hr, h2]
    · simp [hi, hr, h2, account_pack_of_unpack_unchecked h1]
  · simp [hi, hr]

/-- C2: whenever a processor operation reports an error, every supplied
record buffer is byte-for-byte what it was before the invocation, for all
six operations. -/
theorem error_no_mutation :
    (∀ (s d a : AccountInfo) (amt : Nat) (e : ProgError),
        (process_transfer s d a amt).1 = .error e →
        (process_transfer s d a amt).2 = (s.data, d.data)) ∧
    (∀ (s dl o : AccountInfo) (amt : Nat) (e : ProgError),
        (process_approve s dl o amt).1 = .error e →
        (process_approve s dl o amt).2 = s.data) ∧
    (∀ (mi di oi : AccountInfo) (amt : Nat) (e : ProgError),
        (process_mint_to mi di oi amt).1 = .error e →
        (process_mint_to mi di oi amt).2 = (mi.data, di.data)) ∧
    (∀ (si mi ai : AccountInfo) (amt : Nat) (e : ProgError),
        (process_burn si mi ai amt).1 = .error e →
        (process_burn si mi ai amt).2 = (si.data, mi.data)) ∧
    (∀ (mi : AccountInfo) (re : Bool) (dec : Nat) (auth : Pubkey) (e : ProgError),
        (process_initialize_mint mi re dec auth).1 = .error e →
        (process_initialize_mint mi re dec auth).2 = mi.data) ∧
    (∀ (ni mi oi : AccountInfo) (re : Bool) (e : ProgError),
        (process_initialize_account ni mi oi re).1 = .error e →
        (process_initialize_account ni mi oi re).2 = ni.data) := by
  refine ⟨?_, ?_, ?_, ?_, ?_, ?_⟩
  · intro s d a amt e h
    rcases transfer_frame s d a amt with hf | hf
    · exact hf
    · rw [h] at hf; exact absurd hf (by simp)
  · intro s dl o amt e h
    rcases approve_frame s dl o amt with hf | hf
    · exact hf
    · rw [h] at hf; exact absurd hf (by simp)
  · intro mi di oi amt e h
    rcases mint_to_frame mi di oi amt with hf | hf
    · exact hf
    · rw [h] at hf; exact absurd hf (by simp)
  · intro si mi ai amt e h
    rcases burn_frame si mi ai amt with hf | hf
    · exact hf
    · rw [h] at hf; exact absurd hf (by simp)
  · intro mi re dec auth e h
    rcases init_mint_frame mi re dec auth with hf | hf
    · exact hf
    · rw [h] at hf; exact absurd hf (by simp)
  · intro ni mi oi re e h
    rcases init_account_frame ni mi oi re with hf | hf
    · exact hf
    · rw [h] at hf; exact absurd hf (by simp)

/-- Witness for C2: a Transfer with insufficient funds leaves both
concrete buffers untouched. -/
theorem error_no_mutation_witness :
    (process_transfer
        ⟨List.replicate 32 1, false, Account.pack_into_slice
          ⟨List.replicate 32 3, List.replicate 32 4, 50, none, 0, .Initialized⟩
          (List.replicate 117 0)⟩
        ⟨List.replicate 32 2, false, Account.pack_into_slice
          ⟨List.replicate 32 3, List.replicate 32 5, 0, none, 0, .Initialized⟩
          (List.replicate 117 0)⟩
        ⟨List.replicate 32 4, true, []⟩ 100).1 =
      .error (.Custom .InsufficientFunds) ∧
    (process_transfer
        ⟨List.replicate 32 1, false, Account.pack_into_slice
          ⟨List.replicate 32 3, List.replicate 32 4, 50, none, 0, .Initialized⟩
          (List.replicate 117 0)⟩
        ⟨List.replicate 32 2, false, Account.pack_into_slice
          ⟨List.replicate 32 3, List.replicate 32 5, 0, none, 0, .Initialized⟩
          (List.replicate 117 0)⟩
        ⟨List.replicate 32 4, true, []⟩ 100).2 =
      (Account.pack_into_slice
          ⟨List.replicate 32 3, List.replicate 32 4, 50, none, 0, .Initialized⟩
          (List.replicate 117 0),
        Account.pack_into_slice
          ⟨List.replicate 32 3, List.replicate 32 5, 0, none, 0, .Initialized⟩
          (List.replicate 117 0)) := by
  constructor
  · decide
  · exact error_no_mutation.1 _ _ _ 100 (.Custom .InsufficientFunds) (by decide)

theorem authorize_source_preserves {srca b : Account} {ai : AccountInfo} {amt : Nat}
    (h : authorize_source srca ai amt = .ok b) :
    b.amount = srca.amount ∧ b.mint = srca.mint ∧ b.owner = srca.owner ∧
      b.state = srca.state ∧ (∀ k, b.delegate = some k → srca.delegate = some k) ∧
      b.delegated_amount ≤ srca.delegated_amount := by
  unfold authorize_source at h
  cases hd : srca.delegate with
  | none =>
    simp only [hd] at h
    rcases hv : validate_owner srca.owner ai with e | u
    · simp only [hv] at h; exact absurd h (by simp)
    · simp only [hv, Except.ok.injEq] at h
      subst h
      exact ⟨rfl, rfl, rfl, rfl, fun k hk => hd ▸ hk, le_refl _⟩
  | some dk =>
    simp only [hd] at h
    by_cases hak : ai.key = dk
    · simp only [if_pos hak] at h
      rcases hv : validate_owner dk ai with e | u
      · simp only [hv] at h; exact absurd h (by simp)
      simp only [hv] at h
      by_cases hlt : srca.delegated_amount < amt
      · rw [if_pos hlt] at h; exact absurd h (by simp)
      rw [if_neg hlt] at h
      rcases hcs : checked_sub srca.delegated_amount amt with _ | v
      · simp only [hcs] at h; exact absurd h (by simp)
      simp only [hcs, Except.ok.injEq] at h
      subst h
      have hv2 : v = srca.delegated_amount - amt := by
        unfold checked_sub at hcs
        rw [if_pos (by omega)] at hcs
        exact (Option.some.inj hcs).symm
      refine ⟨rfl, rfl, rfl, rfl, ?_, ?_⟩
      · intro k hk
        by_cases hz : v = 0
        · rw [show ({ srca with
              delegated_amount := v,
              delegate := if v = 0 then none else some dk } : Account).delegate =
            if v = 0 then none else some dk from rfl, if_pos hz] at hk
          exact absurd hk (by simp)
        · rw [show ({ srca with
              delegated_amount := v,
              delegate := if v = 0 then none else some dk } : Account).delegate =
            if v = 0 then none else some dk from rfl, if_neg hz] at hk
          exact hk
      · show v ≤ srca.delegated_amount
        omega
    · simp only [if_neg hak] at h
      rcases hv : validate_owner srca.owner ai with e | u
      · simp only [hv] at h; exact absurd h (by simp)
      · simp only [hv, Except.ok.injEq] at h
        subst h
        exact ⟨rfl, rfl, rfl, rfl, fun k hk => by rw [← hd]; exact hk, le_refl _⟩

theorem authorize_source_delegate (srca : Account) (ai : AccountInfo) (amt : Nat)
    (hd : srca.delegate = some ai.key) (hsig : ai.is_signer = true)
    (hamt : amt ≤ srca.delegated_amount) :
    authorize_source srca ai amt =
      .ok { srca with
            delegated_amount := srca.delegated_amount - amt,
            delegate := if srca.delegated_amount - amt = 0 then none
                        else srca.delegate } := by
  unfold authorize_source
  simp only [hd]
  simp [validate_owner, hsig, Nat.not_lt.mpr hamt, checked_sub, hamt, hd]

theorem authorize_source_owner (srca : Account) (ai : AccountInfo) (amt : Nat)
    (hk : ai.key = srca.owner) (hsig : ai.is_signer = true)
    (hdel : srca.delegate = some srca.owner → amt ≤ srca.delegated_amount) :
    ∃ b, authorize_source srca ai amt = .ok b := by
  cases hd : srca.delegate with
  | none =>
    refine ⟨srca, ?_⟩
    unfold authorize_source
    simp only [hd]
    simp [validate_owner, hk, hsig]
  | some dk =>
    by_cases hak : ai.key = dk
    · have hdk : dk = srca.owner := by rw [← hak, hk]
      have hle : amt ≤ srca.delegated_amount := hdel (hdk ▸ hd)
      exact ⟨_, authorize_source_delegate srca ai amt (by rw [hd, hak]) hsig hle⟩
    · refine ⟨srca, ?_⟩
      unfold authorize_source
      simp only [hd, if_neg hak]
      simp [validate_owner, hk, hsig]

theorem transfer_success (s d a : AccountInfo) (amt : Nat) (src dst b : Account)
    (hkey : s.key ≠ d.key)
    (h1 : Account.unpack s.data = .ok src) (h2 : Account.unpack d.data = .ok dst)
    (hf : amt ≤ src.amount) (hm : src.mint = dst.mint)
    (hauth : authorize_source src a amt = .ok b)
    (hov : dst.amount + amt < 2 ^ 64) :
    process_transfer s d a amt =
      (.ok (), Account.pack_into_slice { b with amount := src.amount - amt } s.data,
       Account.pack_into_slice { dst with amount := dst.amount + amt } d.data) := by
  have hba : b.amount = src.amount := (authorize_source_preserves hauth).1
  have hcs : checked_sub b.amount amt = some (src.amount - amt) := by
    rw [hba]; unfold checked_sub; rw [if_pos hf]
  have hca : checked_add dst.amount amt = some (dst.amount + amt) := by
    unfold checked_add; rw [if_pos hov]
  unfold process_transfer
  simp only [if_neg hkey, h1, h2, if_neg (Nat.not_lt.mpr hf),
    if_neg (show ¬ src.mint ≠ dst.mint by simp [hm]), hauth, hcs, hca,
    account_pack_of_unpack h1, account_pack_of_unpack h2]

theorem account_unpack_of_unchecked {buf : List Nat} {a : Account}
    (h : Account.unpack_unchecked buf = .ok a) (hi : a.is_init = true) :
    Account.unpack buf = .ok a := by
  simp [Account.unpack, h, hi]

theorem mint_unpack_of_unchecked {buf : List Nat} {m : Mint}
    (h : Mint.unpack_unchecked buf = .ok m) (hi : m.is_initialized = true) :
    Mint.unpack buf = .ok m := by
  simp [Mint.unpack, h, hi]

/-- C1 (amended): a Transfer with distinct records, `amount ≤ source.amount`,
matching mints and a valid owner signer succeeds and moves exactly `amount`
from source to destination, keeping the sum of the two balances, provided
additionally that the destination balance does not overflow u64 and that,
when the source delegate happens to equal the source owner, the delegated
allowance also covers `amount` (the delegate branch is taken in that case). -/
theorem transfer_owner_moves_amount
    (s d a : AccountInfo) (amt : Nat) (src dst : Account)
    (hkey : s.key ≠ d.key)
    (hbs : IsBytes s.data) (hbd : IsBytes d.data)
    (h1 : Account.unpack s.data = .ok src) (h2 : Account.unpack d.data = .ok dst)
    (hf : amt ≤ src.amount) (hm : src.mint = dst.mint)
    (hok : a.key = src.owner) (hsig : a.is_signer = true)
    (hov : dst.amount + amt < 2 ^ 64)
    (hdel : src.delegate = some src.owner → amt ≤ src.delegated_amount) :
    (process_transfer s d a amt).1 = .ok () ∧
    ∃ src2 dst2,
      Account.unpack (process_transfer s d a amt).2.1 = .ok src2 ∧
      Account.unpack (process_transfer s d a amt).2.2 = .ok dst2 ∧
      src2.amount = src.amount - amt ∧
      dst2.amount = dst.amount + amt ∧
      src2.amount + dst2.amount = src.amount + dst.amount := by
  obtain ⟨b, hauth⟩ := authorize_source_owner src a amt hok hsig hdel
  obtain ⟨hba, hbm, hbo, hbst, hbd2, hbda⟩ := authorize_source_preserves hauth
  have htr := transfer_success s d a amt src dst b hkey h1 h2 hf hm hauth hov
  have hsval := account_unpack_valid hbs h1
  have hdval := account_unpack_valid hbd h2
  have hslen := account_unpack_length h1
  have hdlen := account_unpack_length h2
  have hsval2 : Account.Valid { b with amount := src.amount - amt } := by
    refine ⟨?_, ?_, ?_, ?_, ?_⟩
    · show b.mint.length = 32
      rw [hbm]; exact hsval.1
    · show b.owner.length = 32
      rw [hbo]; exact hsval.2.1
    · show src.amount - amt < 2 ^ 64
      have := hsval.2.2.1; omega
    · intro k hk
      exact hsval.2.2.2.1 k (hbd2 k hk)
    · show b.delegated_amount < 2 ^ 64
      have := hsval.2.2.2.2; omega
  have hdval2 : Account.Valid { dst with amount := dst.amount + amt } := by
    refine ⟨hdval.1, hdval.2.1, hov, hdval.2.2.2.1, hdval.2.2.2.2⟩
  have hsinit : ({ b with amount := src.amount - amt } : Account).is_init = true := by
    show (Account.is_init { b with amount := src.amount - amt }) = true
    simp only [Account.is_init, hbst]
    exact (account_unpack_ok h1).2
  have hdinit : ({ dst with amount := dst.amount + amt } : Account).is_init = true := by
    simp only [Account.is_init]
    exact (account_unpack_ok h2).2
  rw [htr]
  refine ⟨rfl, { b with amount := src.amount - amt },
    { dst with amount := dst.amount + amt }, ?_, ?_, rfl, rfl, by simp; omega⟩
  · exact account_unpack_of_unchecked
      (account_unpack_unchecked_pack _ _ hsval2 hslen) hsinit
  · exact account_unpack_of_unchecked
      (account_unpack_unchecked_pack _ _ hdval2 hdlen) hdinit

/-- Counterexample for C1 as stated: two transfers satisfying all of the
claim hypotheses (distinct records, `amount ≤ source.amount`, equal mints,
valid owner signer) that nevertheless fail: one because the destination
balance would overflow u64, one because the source delegate equals the
owner and the delegated allowance is smaller than the amount. -/
theorem transfer_owner_counterexample :
    (Account.unpack
        (Account.pack_into_slice
          ⟨List.replicate 32 3, List.replicate 32 4, 2 ^ 64 - 1, none, 0, .Initialized⟩
          (List.replicate 117 0)) =
      .ok ⟨List.replicate 32 3, List.replicate 32 4, 2 ^ 64 - 1, none, 0, .Initialized⟩) ∧
    (Account.unpack
        (Account.pack_into_slice
          ⟨List.replicate 32 3, List.replicate 32 6, 1, none, 0, .Initialized⟩
          (List.replicate 117 0)) =
      .ok ⟨List.replicate 32 3, List.replicate 32 6, 1, none, 0, .Initialized⟩) ∧
    (process_transfer
        ⟨List.replicate 32 1, false,
          Account.pack_into_slice
            ⟨List.replicate 32 3, List.replicate 32 4, 2 ^ 64 - 1, none, 0, .Initialized⟩
            (List.replicate 117 0)⟩
        ⟨List.replicate 32 2, false,
          Account.pack_into_slice
            ⟨List.replicate 32 3, List.replicate 32 6, 1, none, 0, .Initialized⟩
            (List.replicate 117 0)⟩
        ⟨List.replicate 32 4, true, []⟩
        (2 ^ 64 - 1)).1 =
      .error (.Custom .Overflow) ∧
    (process_transfer
        ⟨List.replicate 32 1, false,
          Account.pack_into_slice
            ⟨List.replicate 32 3, List.replicate 32 4, 50, some (List.replicate 32 4), 0,
              .Initialized⟩
            (List.replicate 117 0)⟩
        ⟨List.replicate 32 2, false,
          Account.pack_into_slice
            ⟨List.replicate 32 3, List.replicate 32 6, 1, none, 0, .Initialized⟩
            (List.replicate 117 0)⟩
        ⟨List.replicate 32 4, true, []⟩
        10).1 =
      .error (.Custom .InsufficientFunds) := by
  refine ⟨by decide, by decide, by decide, by decide⟩

/-- Witness for the amended C1 at a concrete transfer of 30 units from a
balance of 50 to a balance of 7. -/
theorem transfer_owner_moves_amount_witness :
    (process_transfer
        ⟨List.replicate 32 1, false,
          Account.pack_into_slice
            ⟨List.replicate 32 3, List.replicate 32 4, 50, none, 0, .Initialized⟩
            (List.replicate 117 0)⟩
        ⟨List.replicate 32 2, false,
          Account.pack_into_slice
            ⟨List.replicate 32 3, List.replicate 32 6, 7, none, 0, .Initialized⟩
            (List.replicate 117 0)⟩
        ⟨List.replicate 32 4, true, []⟩
        30).1 = .ok () ∧
    ∃ src2 dst2,
      Account.unpack
          (process_transfer
            ⟨List.replicate 32 1, false,
              Account.pack_into_slice
                ⟨List.replicate 32 3, List.replicate 32 4, 50, none, 0, .Initialized⟩
                (List.replicate 117 0)⟩
            ⟨List.replicate 32 2, false,
              Account.pack_into_slice
                ⟨List.replicate 32 3, List.replicate 32 6, 7, none, 0, .Initialized⟩
                (List.replicate 117 0)⟩
            ⟨List.replicate 32 4, true, []⟩
            30).2.1 = .ok src2 ∧
      Account.unpack
          (process_transfer
            ⟨List.replicate 32 1, false,
              Account.pack_into_slice
                ⟨List.replicate 32 3, List.replicate 32 4, 50, none, 0, .Initialized⟩
                (List.replicate 117 0)⟩
            ⟨List.replicate 32 2, false,
              Account.pack_into_slice
                ⟨List.replicate 32 3, List.replicate 32 6, 7, none, 0, .Initialized⟩
                (List.replicate 117 0)⟩
            ⟨List.replicate 32 4, true, []⟩
            30).2.2 = .ok dst2 ∧
      src2.amount = 50 - 30 ∧
      dst2.amount = 7 + 30 ∧
      src2.amount + dst2.amount = 50 + 7 := by
  exact transfer_owner_moves_amount _ _ _ 30
    ⟨List.replicate 32 3, List.replicate 32 4, 50, none, 0, .Initialized⟩
    ⟨List.replicate 32 3, List.replicate 32 6, 7, none, 0, .Initialized⟩
    (by decide) (by decide) (by decide) (by decide) (by decide) (by decide)
    (by decide) (by decide) (by decide) (by decide) (by decide)

/-- C3 (amended): under the transfer preconditions (distinct records,
strict decodes, `amount ≤ source.amount`, matching mints, no destination
overflow), a delegate-authorized Transfer with `amount ≤ delegated_amount`
succeeds, reduces `delegated_amount` to exactly the remainder, clears
`delegate` to none when `amount = delegated_amount`, and keeps
`delegate = Some(d)` when `amount < delegated_amount`. -/
theorem transfer_delegate_allowance
    (s d a : AccountInfo) (amt : Nat) (src dst : Account)
    (hkey : s.key ≠ d.key)
    (hbs : IsBytes s.data) (hbd : IsBytes d.data)
    (h1 : Account.unpack s.data = .ok src) (h2 : Account.unpack d.data = .ok dst)
    (hf : amt ≤ src.amount) (hm : src.mint = dst.mint)
    (hd : src.delegate = some a.key) (hsig : a.is_signer = true)
    (hale : amt ≤ src.delegated_amount)
    (hov : dst.amount + amt < 2 ^ 64) :
    (process_transfer s d a amt).1 = .ok () ∧
    ∃ src2,
      Account.unpack (process_transfer s d a amt).2.1 = .ok src2 ∧
      src2.delegated_amount = src.delegated_amount - amt ∧
      (amt = src.delegated_amount → src2.delegate = none) ∧
      (amt < src.delegated_amount → src2.delegate = some a.key) := by
  have hauth := authorize_source_delegate src a amt hd hsig hale
  have htr := transfer_success s d a amt src dst _ hkey h1 h2 hf hm hauth hov
  have hsval := account_unpack_valid hbs h1
  have hslen := account_unpack_length h1
  have hsval2 : Account.Valid
      { src with
        amount := src.amount - amt,
        delegated_amount := src.delegated_amount - amt,
        delegate := if src.delegated_amount - amt = 0 then none else src.delegate } := by
    refine ⟨hsval.1, hsval.2.1, ?_, ?_, ?_⟩
    · show src.amount - amt < 2 ^ 64
      have := hsval.2.2.1; omega
    · intro k hk
      by_cases hz : src.delegated_amount - amt = 0
      · rw [show ({ src with
            amount := src.amount - amt,
            delegated_amount := src.delegated_amount - amt,
            delegate := if src.delegated_amount - amt = 0 then none
                        else src.delegate } : Account).delegate =
          if src.delegated_amount - amt = 0 then none else src.delegate from rfl,
          if_pos hz] at hk
        exact absurd hk (by simp)
      · rw [show ({ src with
            amount := src.amount - amt,
            delegated_amount := src.delegated_amount - amt,
            delegate := if src.delegated_amount - amt = 0 then none
                        else src.delegate } : Account).delegate =
          if src.delegated_amount - amt = 0 then none else src.delegate from rfl,
          if_neg hz] at hk
        exact hsval.2.2.2.1 k hk
    · show src.delegated_amount - amt < 2 ^ 64
      have := hsval.2.2.2.2; omega
  have hsinit : ({ src with
      amount := src.amount - amt,
      delegated_amount := src.delegated_amount - amt,
      delegate := if src.delegated_amount - amt = 0 then none
                  else src.delegate } : Account).is_init = true := by
    simp only [Account.is_init]
    exact (account_unpack_ok h1).2
  rw [htr]
  refine ⟨rfl,
    { src with
      amount := src.amount - amt,
      delegated_amount := src.delegated_amount - amt,
      delegate := if src.delegated_amount - amt = 0 then none else src.delegate },
    ?_, rfl, ?_, ?_⟩
  · exact account_unpack_of_unchecked
      (account_unpack_unchecked_pack _ _ hsval2 hslen) hsinit
  · intro he
    show (if src.delegated_amount - amt = 0 then none else src.delegate) = none
    rw [if_pos (by omega)]
  · intro hlt
    show (if src.delegated_amount - amt = 0 then none else src.delegate) = some a.key
    rw [if_neg (by omega)]
    exact hd

/-- Counterexample for C3 as stated: a delegate-authorized Transfer of
exactly the delegated amount (60) fails with InsufficientFunds when the
source balance (50) is smaller, so the claim needs the transfer
preconditions (in particular `amount ≤ source.amount`) added. -/
theorem transfer_delegate_counterexample :
    (Account.unpack
        (Account.pack_into_slice
          ⟨List.replicate 32 3, List.replicate 32 4, 50, some (List.replicate 32 5), 60,
            .Initialized⟩
          (List.replicate 117 0)) =
      .ok ⟨List.replicate 32 3, List.replicate 32 4, 50, some (List.replicate 32 5), 60,
            .Initialized⟩) ∧
    (process_transfer
        ⟨List.replicate 32 1, false,
          Account.pack_into_slice
            ⟨List.replicate 32 3, List.replicate 32 4, 50, some (List.replicate 32 5), 60,
              .Initialized⟩
            (List.replicate 117 0)⟩
        ⟨List.replicate 32 2, false,
          Account.pack_into_slice
            ⟨List.replicate 32 3, List.replicate 32 6, 1, none, 0, .Initialized⟩
            (List.replicate 117 0)⟩
        ⟨List.replicate 32 5, true, []⟩
        60).1 =
      .error (.Custom .InsufficientFunds) := by
  exact ⟨by decide, by decide⟩

/-- Witness for the amended C3: a delegate-authorized transfer of exactly
the allowance (40 out of a balance of 50) clears the delegate. -/
theorem transfer_delegate_allowance_witness :
    (process_transfer
        ⟨List.replicate 32 1, false,
          Account.pack_into_slice
            ⟨List.replicate 32 3, List.replicate 32 4, 50, some (List.replicate 32 5), 40,
              .Initialized⟩
            (List.replicate 117 0)⟩
        ⟨List.replicate 32 2, false,
          Account.pack_into_slice
            ⟨List.replicate 32 3, List.replicate 32 6, 1, none, 0, .Initialized⟩
            (List.replicate 117 0)⟩
        ⟨List.replicate 32 5, true, []⟩
        40).1 = .ok () ∧
    ∃ src2,
      Account.unpack
          (process_transfer
            ⟨List.replicate 32 1, false,
              Account.pack_into_slice
                ⟨List.replicate 32 3, List.replicate 32 4, 50, some (List.replicate 32 5), 40,
                  .Initialized⟩
                (List.replicate 117 0)⟩
            ⟨List.replicate 32 2, false,
              Account.pack_into_slice
                ⟨List.replicate 32 3, List.replicate 32 6, 1, none, 0, .Initialized⟩
                (List.replicate 117 0)⟩
            ⟨List.replicate 32 5, true, []⟩
            40).2.1 = .ok src2 ∧
      src2.delegated_amount = 40 - 40 ∧
      (40 = 40 → src2.delegate = none) ∧
      (40 < 40 → src2.delegate = some (List.replicate 32 5)) := by
  exact transfer_delegate_allowance _ _ _ 40
    ⟨List.replicate 32 3, List.replicate 32 4, 50, some (List.replicate 32 5), 40,
      .Initialized⟩
    ⟨List.replicate 32 3, List.replicate 32 6, 1, none, 0, .Initialized⟩
    (by decide) (by decide) (by decide) (by decide) (by decide) (by decide)
    (by decide) (by decide) (by decide) (by decide) (by decide)

theorem checked_add_some {a b v : Nat} (h : checked_add a b = some v) :
    a + b < 2 ^ 64 ∧ v = a + b := by
  unfold checked_add at h
  split at h
  · exact ⟨by assumption, (Option.some.inj h).symm⟩
  · exact absurd h (by simp)

theorem checked_sub_some {a b v : Nat} (h : checked_sub a b = some v) :
    b ≤ a ∧ v = a - b := by
  unfold checked_sub at h
  split at h
  · exact ⟨by assumption, (Option.some.inj h).symm⟩
  · exact absurd h (by simp)

theorem mint_to_success {mi di oi : AccountInfo} {amt : Nat}
    (h : (process_mint_to mi di oi amt).1 = .ok ()) :
    ∃ dst mint dv sv,
      Account.unpack di.data = .ok dst ∧ Mint.unpack mi.data = .ok mint ∧
      checked_add dst.amount amt = some dv ∧ checked_add mint.supply amt = some sv ∧
      process_mint_to mi di oi amt =
        (.ok (), Mint.pack_into_slice { mint with supply := sv } mi.data,
         Account.pack_into_slice { dst with amount := dv } di.data) := by
  unfold process_mint_to at h ⊢
  rcases h1 : Account.unpack di.data with e1 | dst
  · simp [h1] at h
  simp only [h1] at h ⊢
  by_cases hk : mi.key ≠ dst.mint
  · simp [hk] at h
  simp only [if_neg hk] at h ⊢
  rcases h2 : Mint.unpack mi.data with e2 | mint
  · simp [h2] at h
  simp only [h2] at h ⊢
  rcases h3 : mint.mint_authority with _ | auth
  · simp [h3] at h
  simp only [h3] at h ⊢
  rcases h4 : validate_owner auth oi with e4 | u
  · simp [h4] at h
  simp only [h4] at h ⊢
  rcases h5 : checked_add dst.amount amt with _ | dv
  · simp [h5] at h
  simp only [h5] at h ⊢
  rcases h6 : checked_add mint.supply amt with _ | sv
  · simp [h6] at h
  simp only [h6] at h ⊢
  refine ⟨dst, mint, dv, sv, by simp [h1], by simp [h2], by simp [h5], by simp [h6], ?_⟩
  simp [account_pack_of_unpack h1, mint_pack_of_unpack h2, h3]

theorem burn_success {si mi ai : AccountInfo} {amt : Nat}
    (h : (process_burn si mi ai amt).1 = .ok ()) :
    ∃ src src1 mint v sv,
      Account.unpack si.data = .ok src ∧ amt ≤ src.amount ∧
      authorize_source src ai amt = .ok src1 ∧
      checked_sub src1.amount amt = some v ∧
      Mint.unpack mi.data = .ok mint ∧
      checked_sub mint.supply amt = some sv ∧
      process_burn si mi ai amt =
        (.ok (), Account.pack_into_slice { src1 with amount := v } si.data,
         Mint.pack_into_slice { mint with supply := sv } mi.data) := by
  unfold process_burn at h ⊢
  rcases h1 : Account.unpack si.data with e1 | src
  · simp [h1] at h
  simp only [h1] at h ⊢
  by_cases hf : src.amount < amt
  · simp [hf] at h
  simp only [if_neg hf] at h ⊢
  by_cases hk : mi.key ≠ src.mint
  · simp [hk] at h
  simp only [if_neg hk] at h ⊢
  rcases h2 : authorize_source src ai amt with e2 | src1
  · simp [h2] at h
  simp only [h2] at h ⊢
  rcases h3 : checked_sub src1.amount amt with _ | v
  · simp [h3] at h
  simp only [h3] at h ⊢
  rcases h4 : Mint.unpack mi.data with e4 | mint
  · simp [h4] at h
  simp only [h4] at h ⊢
  rcases h5 : checked_sub mint.supply amt with _ | sv
  · simp [h5] at h
  simp only [h5] at h ⊢
  refine ⟨src, src1, mint, v, sv, by simp [h1], Nat.not_lt.mp hf, by simp [h2],
    by simp [h3], by simp [h4], by simp [h5], ?_⟩
  simp [account_pack_of_unpack h1, mint_pack_of_unpack h4]

/-- C4: a successful MintTo increases `mint.supply` by exactly `amount`
and a successful Burn decreases it by exactly `amount`; a MintTo whose
supply addition would leave u64 range, and a Burn whose supply subtraction
would go below zero, each reaching its arithmetic, is rejected with
Overflow. -/
theorem supply_changes_exactly :
    (∀ (mi di oi : AccountInfo) (amt : Nat), IsBytes mi.data →
        (process_mint_to mi di oi amt).1 = .ok () →
        ∃ mint mint2, Mint.unpack mi.data = .ok mint ∧
          Mint.unpack (process_mint_to mi di oi amt).2.1 = .ok mint2 ∧
          mint2.supply = mint.supply + amt ∧ mint.supply + amt < 2 ^ 64) ∧
    (∀ (mi di oi : AccountInfo) (amt : Nat) (dst : Account) (mint : Mint)
        (auth : Pubkey),
        Account.unpack di.data = .ok dst → mi.key = dst.mint →
        Mint.unpack mi.data = .ok mint → mint.mint_authority = some auth →
        validate_owner auth oi = .ok () → 2 ^ 64 ≤ mint.supply + amt →
        (process_mint_to mi di oi amt).1 = .error (.Custom .Overflow)) ∧
    (∀ (si mi ai : AccountInfo) (amt : Nat), IsBytes mi.data →
        (process_burn si mi ai amt).1 = .ok () →
        ∃ mint mint2, Mint.unpack mi.data = .ok mint ∧
          Mint.unpack (process_burn si mi ai amt).2.2 = .ok mint2 ∧
          mint2.supply = mint.supply - amt ∧ amt ≤ mint.supply) ∧
    (∀ (si mi ai : AccountInfo) (amt : Nat) (src src1 : Account) (mint : Mint),
        Account.unpack si.data = .ok src → amt ≤ src.amount →
        mi.key = src.mint → authorize_source src ai amt = .ok src1 →
        Mint.unpack mi.data = .ok mint → mint.supply < amt →
        (process_burn si mi ai amt).1 = .error (.Custom .Overflow)) := by
  refine ⟨?_, ?_, ?_, ?_⟩
  · intro mi di oi amt hbytes hok
    obtain ⟨dst, mint, dv, sv, h1, h2, hca1, hca2, heq⟩ := mint_to_success hok
    obtain ⟨hbound, hsv⟩ := checked_add_some hca2
    have hval := mint_unpack_valid hbytes h2
    have hval2 : Mint.Valid { mint with supply := sv } :=
      ⟨hval.1, by show sv < 2 ^ 64; omega, hval.2.2⟩
    have hinit : ({ mint with supply := sv } : Mint).is_initialized = true :=
      (mint_unpack_ok h2).2
    have hlen := mint_unpack_length h2
    refine ⟨mint, { mint with supply := sv }, h2, ?_, by show sv = _; omega, hbound⟩
    rw [heq]
    exact mint_unpack_of_unchecked (mint_unpack_unchecked_pack _ _ hval2 hlen) hinit
  · intro mi di oi amt dst mint auth h1 hk h2 h3 h4 hov
    unfold process_mint_to
    simp only [h1, if_neg (show ¬ mi.key ≠ dst.mint by simp [hk]), h2, h3, h4]
    rcases h5 : checked_add dst.amount amt with _ | dv
    · simp
    have h6 : checked_add mint.supply amt = none := by
      unfold checked_add; rw [if_neg (by omega)]
    simp [h6]
  · intro si mi ai amt hbytes hok
    obtain ⟨src, src1, mint, v, sv, h1, hf, h2, h3, h4, h5, heq⟩ := burn_success hok
    obtain ⟨hle, hsv⟩ := checked_sub_some h5
    have hval := mint_unpack_valid hbytes h4
    have hval2 : Mint.Valid { mint with supply := sv } :=
      ⟨hval.1, by show sv < 2 ^ 64; have := hval.2.1; omega, hval.2.2⟩
    have hinit : ({ mint with supply := sv } : Mint).is_initialized = true :=
      (mint_unpack_ok h4).2
    have hlen := mint_unpack_length h4
    refine ⟨mint, { mint with supply := sv }, h4, ?_, by show sv = _; omega, hle⟩
    rw [heq]
    exact mint_unpack_of_unchecked (mint_unpack_unchecked_pack _ _ hval2 hlen) hinit
  · intro si mi ai amt src src1 mint h1 hf hk h2 h3 hlow
    unfold process_burn
    have hcs : checked_sub src1.amount amt = some (src.amount - amt) := by
      rw [(authorize_source_preserves h2).1]
      unfold checked_sub
      rw [if_pos hf]
    have h6 : checked_sub mint.supply amt = none := by
      unfold checked_sub; rw [if_neg (by omega)]
    simp only [h1, if_neg (Nat.not_lt.mpr hf),
      if_neg (show ¬ mi.key ≠ src.mint by simp [hk]), h2, hcs, h3, h6]

/-- Witness for C4: a concrete MintTo of 10 onto supply 100 succeeds with
new supply 110, and a concrete MintTo of 1 onto supply 2^64 - 1 is
rejected with Overflow. -/
theorem supply_changes_exactly_witness :
    (∃ mint mint2,
      Mint.unpack
          (Mint.pack_into_slice ⟨some (List.replicate 32 7), 100, 2, true⟩
            (List.replicate 46 0)) = .ok mint ∧
      Mint.unpack
          (process_mint_to
            ⟨List.replicate 32 3, false,
              Mint.pack_into_slice ⟨some (List.replicate 32 7), 100, 2, true⟩
                (List.replicate 46 0)⟩
            ⟨List.replicate 32 1, false,
              Account.pack_into_slice
                ⟨List.replicate 32 3, List.replicate 32 4, 5, none, 0, .Initialized⟩
                (List.replicate 117 0)⟩
            ⟨List.replicate 32 7, true, []⟩ 10).2.1 = .ok mint2 ∧
      mint2.supply = mint.supply + 10 ∧ mint.supply + 10 < 2 ^ 64) ∧
    (process_mint_to
        ⟨List.replicate 32 3, false,
          Mint.pack_into_slice ⟨some (List.replicate 32 7), 2 ^ 64 - 1, 2, true⟩
            (List.replicate 46 0)⟩
        ⟨List.replicate 32 1, false,
          Account.pack_into_slice
            ⟨List.replicate 32 3, List.replicate 32 4, 5, none, 0, .Initialized⟩
            (List.replicate 117 0)⟩
        ⟨List.replicate 32 7, true, []⟩ 1).1 = .error (.Custom .Overflow) := by
  constructor
  · exact supply_changes_exactly.1
      ⟨List.replicate 32 3, false,
        Mint.pack_into_slice ⟨some (List.replicate 32 7), 100, 2, true⟩
          (List.replicate 46 0)⟩
      ⟨List.replicate 32 1, false,
        Account.pack_into_slice
          ⟨List.replicate 32 3, List.replicate 32 4, 5, none, 0, .Initialized⟩
          (List.replicate 117 0)⟩
      ⟨List.replicate 32 7, true, []⟩ 10 (by decide) (by decide)
  · exact supply_changes_exactly.2.1 _ _ _ 1
      ⟨List.replicate 32 3, List.replicate 32 4, 5, none, 0, .Initialized⟩
      ⟨some (List.replicate 32 7), 2 ^ 64 - 1, 2, true⟩
      (List.replicate 32 7)
      (by decide) (by decide) (by decide) (by decide) (by decide) (by decide)

/-- C8: InitializeAccount on an uninitialized, rent-exempt account record
is rejected with InvalidMint whenever the strict decode of the mint record
fails — in particular when the mint record is not yet initialized — and
otherwise succeeds, setting mint to the mint record address, owner to the
supplied owner identity, delegate to none, delegated_amount and amount to
0, and state to Initialized. -/
theorem init_account_sets_fields
    (ni mi oi : AccountInfo) (acct : Account)
    (hun : Account.unpack_unchecked ni.data = .ok acct)
    (hst : acct.is_init = false) :
    (∀ e, Mint.unpack mi.data = .error e →
        process_initialize_account ni mi oi true =
          (.error (.Custom .InvalidMint), ni.data)) ∧
    (∀ mint, Mint.unpack_unchecked mi.data = .ok mint →
        mint.is_initialized = false →
        process_initialize_account ni mi oi true =
          (.error (.Custom .InvalidMint), ni.data)) ∧
    (∀ mint, Mint.unpack mi.data = .ok mint →
        process_initialize_account ni mi oi true =
          (.ok (), Account.pack_into_slice
            ⟨mi.key, oi.key, 0, none, 0, .Initialized⟩ ni.data)) ∧
    (∀ mint, Mint.unpack mi.data = .ok mint →
        mi.key.length = 32 → oi.key.length = 32 →
        Account.unpack (process_initialize_account ni mi oi true).2 =
          .ok ⟨mi.key, oi.key, 0, none, 0, .Initialized⟩) := by
  have herr : ∀ e, Mint.unpack mi.data = .error e →
      process_initialize_account ni mi oi true =
        (.error (.Custom .InvalidMint), ni.data) := by
    intro e he
    unfold process_initialize_account
    simp [hun, hst, he]
  have hmain : ∀ mint, Mint.unpack mi.data = .ok mint →
      process_initialize_account ni mi oi true =
        (.ok (), Account.pack_into_slice
          ⟨mi.key, oi.key, 0, none, 0, .Initialized⟩ ni.data) := by
    intro mint hm
    unfold process_initialize_account
    simp [hun, hst, hm, account_pack_of_unpack_unchecked hun]
  refine ⟨herr, ?_, hmain, ?_⟩
  · intro mint hm hini
    exact herr .UninitializedAccount (by simp [Mint.unpack, hm, hini])
  · intro mint hm hkm hko
    rw [hmain mint hm]
    have hval : Account.Valid ⟨mi.key, oi.key, 0, none, 0, .Initialized⟩ := by
      refine ⟨hkm, hko, by norm_num, ?_, by norm_num⟩
      intro k hk
      exact absurd hk (by simp)
    have hlen := account_unpack_unchecked_length hun
    exact account_unpack_of_unchecked
      (account_unpack_unchecked_pack _ _ hval hlen) (by simp [Account.is_init])

/-- Witness for C8: a concrete InitializeAccount against an initialized
mint succeeds with the expected field values, and against an
uninitialized (all-zero) mint record is rejected with InvalidMint. -/
theorem init_account_sets_fields_witness :
    process_initialize_account
        ⟨List.replicate 32 1, false, List.replicate 117 0⟩
        ⟨List.replicate 32 3, false,
          Mint.pack_into_slice ⟨some (List.replicate 32 7), 0, 2, true⟩
            (List.replicate 46 0)⟩
        ⟨List.replicate 32 4, true, []⟩ true =
      (.ok (), Account.pack_into_slice
        ⟨List.replicate 32 3, List.replicate 32 4, 0, none, 0, .Initialized⟩
        (List.replicate 117 0)) ∧
    process_initialize_account
        ⟨List.replicate 32 1, false, List.replicate 117 0⟩
        ⟨List.replicate 32 3, false, List.replicate 46 0⟩
        ⟨List.replicate 32 4, true, []⟩ true =
      (.error (.Custom .InvalidMint), List.replicate 117 0) := by
  constructor
  · exact (init_account_sets_fields
      ⟨List.replicate 32 1, false, List.replicate 117 0⟩
      ⟨List.replicate 32 3, false,
        Mint.pack_into_slice ⟨some (List.replicate 32 7), 0, 2, true⟩
          (List.replicate 46 0)⟩
      ⟨List.replicate 32 4, true, []⟩
      ⟨List.replicate 32 0, List.replicate 32 0, 0, none, 0, .Uninitialized⟩
      (by decide) (by decide)).2.2.1
      ⟨some (List.replicate 32 7), 0, 2, true⟩ (by decide)
  · exact (init_account_sets_fields
      ⟨List.replicate 32 1, false, List.replicate 117 0⟩
      ⟨List.replicate 32 3, false, List.replicate 46 0⟩
      ⟨List.replicate 32 4, true, []⟩
      ⟨List.replicate 32 0, List.replicate 32 0, 0, none, 0, .Uninitialized⟩
      (by decide) (by decide)).2.1
      ⟨none, 0, 0, false⟩ (by decide) (by decide)

/-- C9: an owner-validated Approve always sets `delegate` to the supplied
delegate identity with `delegated_amount := amount`, for every amount
including 0 — it never clears the delegate — so an account with a
delegate set and a zero remaining allowance is reachable; in contrast,
the shared delegate-authorization branch of Transfer and Burn clears the
delegate when it consumes exactly the whole allowance. -/
theorem approve_zero_keeps_delegate
    (s dl o : AccountInfo) (amount : Nat) (src : Account)
    (hun : Account.unpack s.data = .ok src)
    (hok : o.key = src.owner) (hsig : o.is_signer = true) :
    (process_approve s dl o amount =
      (.ok (), Account.pack_into_slice
        { src with delegate := some dl.key, delegated_amount := amount } s.data)) ∧
    (IsBytes s.data → dl.key.length = 32 → amount < 2 ^ 64 →
      Account.unpack (process_approve s dl o amount).2 =
        .ok { src with delegate := some dl.key, delegated_amount := amount }) ∧
    (∀ (b : Account) (ai : AccountInfo), b.delegate = some ai.key →
        ai.is_signer = true → b.delegated_amount = amount →
        authorize_source b ai amount =
          .ok { b with delegated_amount := 0, delegate := none }) := by
  have hv : validate_owner src.owner o = .ok () := by
    unfold validate_owner
    rw [if_neg (by simp [hok]), if_neg (by simp [hsig])]
  have hmain : process_approve s dl o amount =
      (.ok (), Account.pack_into_slice
        { src with delegate := some dl.key, delegated_amount := amount } s.data) := by
    unfold process_approve
    simp only [hun, hv, account_pack_of_unpack hun]
  refine ⟨hmain, ?_, ?_⟩
  · intro hbs hdl hamt
    rw [hmain]
    have hval0 := account_unpack_valid hbs hun
    have hval : Account.Valid
        { src with delegate := some dl.key, delegated_amount := amount } := by
      refine ⟨hval0.1, hval0.2.1, hval0.2.2.1, ?_, hamt⟩
      intro k hk
      have : dl.key = k := by
        have : (some dl.key : Option Pubkey) = some k := hk
        exact Option.some.inj this
      rw [← this]
      exact hdl
    have hinit : ({ src with
                    delegate := some dl.key,
                    delegated_amount := amount } : Account).is_init = true := by
      simp only [Account.is_init]
      exact (account_unpack_ok hun).2
    exact account_unpack_of_unchecked
      (account_unpack_unchecked_pack _ _ hval (account_unpack_length hun)) hinit
  · intro b ai hd hbsig hda
    have := authorize_source_delegate b ai amount hd hbsig (by omega)
    rw [this]
    congr 1
    simp [hda]

/-- Witness for C9: Approve with amount 0 on a concrete account leaves the
delegate set with a zero allowance, and the shared authorization branch
clears a delegate whose whole allowance (40) is consumed. -/
theorem approve_zero_keeps_delegate_witness :
    Account.unpack
        (process_approve
          ⟨List.replicate 32 1, false,
            Account.pack_into_slice
              ⟨List.replicate 32 3, List.replicate 32 4, 50, none, 7, .Initialized⟩
              (List.replicate 117 0)⟩
          ⟨List.replicate 32 5, false, []⟩
          ⟨List.replicate 32 4, true, []⟩ 0).2 =
      .ok ⟨List.replicate 32 3, List.replicate 32 4, 50, some (List.replicate 32 5), 0,
            .Initialized⟩ ∧
    authorize_source
        ⟨List.replicate 32 3, List.replicate 32 4, 50, some (List.replicate 32 5), 40,
          .Initialized⟩
        ⟨List.replicate 32 5, true, []⟩ 40 =
      .ok ⟨List.replicate 32 3, List.replicate 32 4, 50, none, 0, .Initialized⟩ := by
  constructor
  · exact (approve_zero_keeps_delegate
      ⟨List.replicate 32 1, false,
        Account.pack_into_slice
          ⟨List.replicate 32 3, List.replicate 32 4, 50, none, 7, .Initialized⟩
          (List.replicate 117 0)⟩
      ⟨List.replicate 32 5, false, []⟩
      ⟨List.replicate 32 4, true, []⟩ 0
      ⟨List.replicate 32 3, List.replicate 32 4, 50, none, 7, .Initialized⟩
      (by decide) (by decide) (by decide)).2.1 (by decide) (by decide) (by decide)
  · exact (approve_zero_keeps_delegate
      ⟨List.replicate 32 1, false,
        Account.pack_into_slice
          ⟨List.replicate 32 3, List.replicate 32 4, 50, none, 7, .Initialized⟩
          (List.replicate 117 0)⟩
      ⟨List.replicate 32 5, false, []⟩
      ⟨List.replicate 32 4, true, []⟩ 40
      ⟨List.replicate 32 3, List.replicate 32 4, 50, none, 7, .Initialized⟩
      (by decide) (by decide) (by decide)).2.2
      ⟨List.replicate 32 3, List.replicate 32 4, 50, some (List.replicate 32 5), 40,
        .Initialized⟩
      ⟨List.replicate 32 5, true, []⟩ (by decide) (by decide) (by decide)

end TestToken
